import Mathlib

set_option autoImplicit false

namespace HdsRpo

/-!
Shallow embedding of the replication-monitoring engine of the hds-rpo
repository: the RPO calculator (`rpoCalculator.js`), the vendor API retry
wrapper, the session manager, the discovery pagination loop, the poll
cycle and the alert store.  JavaScript numbers are modelled as exact
rationals, fallible operations return `Option`/`Except`.
-/

/-- JavaScript Math.round: nearest integer, halves toward positive infinity. -/
def jsRound (q : ℚ) : ℤ := ⌊q + 1 / 2⌋

/-- Rounding to two decimal places, as in the source: Math.round(x * 100) / 100. -/
def round2 (q : ℚ) : ℚ := (jsRound (q * 100) : ℚ) / 100

/-- Character class [\d.] of the capacity regex in parseByteFormatCapacity. -/
def isNumChar (c : Char) : Bool := c.isDigit || c = '.'

/-- Letter accepted by the ([BKMGTP]) group of the capacity regex, case-insensitively. -/
def isUnitChar (c : Char) : Bool :=
  c.toUpper = 'B' || c.toUpper = 'K' || c.toUpper = 'M' ||
  c.toUpper = 'G' || c.toUpper = 'T' || c.toUpper = 'P'

/-- String.prototype.trim on the character list of the string. -/
def trimList (cs : List Char) : List Char :=
  ((cs.dropWhile Char.isWhitespace).reverse.dropWhile Char.isWhitespace).reverse

/-- Numeric value of a decimal digit character. -/
def digitVal (c : Char) : ℕ := c.toNat - '0'.toNat

/-- Value of a block of decimal digits, most significant first. -/
def digitsVal (ds : List Char) : ℕ := ds.foldl (fun acc c => 10 * acc + digitVal c) 0

/-- Value contributed by the digits after the decimal point. -/
def fracVal (ds : List Char) : ℚ := (digitsVal ds : ℚ) / 10 ^ ds.length

/-- JavaScript parseFloat restricted to strings over [\d.], the only strings
    the capacity regex can hand it; `none` models NaN. -/
def parseFloatQ (cs : List Char) : Option ℚ :=
  let ip := cs.takeWhile Char.isDigit
  let rest := cs.dropWhile Char.isDigit
  if ip ≠ [] then
    match rest with
    | '.' :: rest2 => some ((digitsVal ip : ℚ) + fracVal (rest2.takeWhile Char.isDigit))
    | _ => some ((digitsVal ip : ℚ))
  else
    match cs with
    | '.' :: rest2 =>
      let fd := rest2.takeWhile Char.isDigit
      if fd = [] then none else some (fracVal fd)
    | _ => none

/-- The regex match of parseByteFormatCapacity, on the trimmed character
    list: the number group [\d.]+, optional whitespace, one unit letter
    [BKMGTP] (case-insensitive), an optional trailing B, end of string.
    Returns the number group and the unit letter. -/
def matchCapacity (cs : List Char) : Option (List Char × Char) :=
  let num := cs.takeWhile isNumChar
  let rest := (cs.dropWhile isNumChar).dropWhile Char.isWhitespace
  if num = [] then none
  else
    match rest with
    | [u] => if isUnitChar u then some (num, u) else none
    | [u, b] => if isUnitChar u && (b = 'B' || b = 'b') then some (num, u) else none
    | _ => none

/-- Table SIZE_MULTIPLIERS, keyed by the upper-cased unit letter; 0 models a
    missing key (the falsy lookup in the source). -/
def sizeMultiplier (c : Char) : ℕ :=
  if c = 'B' then 1
  else if c = 'K' then 1024
  else if c = 'M' then 1024 ^ 2
  else if c = 'G' then 1024 ^ 3
  else if c = 'T' then 1024 ^ 4
  else if c = 'P' then 1024 ^ 5
  else 0

/-- Body of parseByteFormatCapacity on the character list of a non-empty string. -/
def parseCapacityList (cs : List Char) : ℤ :=
  match matchCapacity (trimList cs) with
  | none => 0
  | some (num, u) =>
    match parseFloatQ num with
    | none => 0
    | some v =>
      if sizeMultiplier u.toUpper = 0 then 0 else jsRound (v * (sizeMultiplier u.toUpper : ℚ))

/-- Function parseByteFormatCapacity of rpoCalculator.js; `none` models a
    non-string argument, and the initial falsy check sends the empty string
    (and non-strings) to 0. -/
def parseByteFormatCapacity : Option String → ℤ
  | none => 0
  | some s => if s.data = [] then 0 else parseCapacityList s.data

/-- The six unit letters of the capacity table, by binary rank. -/
def unitLetter : Fin 6 → Char
  | ⟨0, _⟩ => 'B'
  | ⟨1, _⟩ => 'K'
  | ⟨2, _⟩ => 'M'
  | ⟨3, _⟩ => 'G'
  | ⟨4, _⟩ => 'T'
  | ⟨5, _⟩ => 'P'

/-- Tail of parseByteFormatCapacity after a successful regex match with
    number group ds and unit letter u. -/
def capResult (ds : List Char) (u : Char) : ℤ :=
  match parseFloatQ ds with
  | none => 0
  | some v =>
    if sizeMultiplier u.toUpper = 0 then 0 else jsRound (v * (sizeMultiplier u.toUpper : ℚ))

/-- Hex digit recognizer for the qMarker parse. -/
def isHexDigitChar (c : Char) : Bool :=
  c.isDigit || ('a' ≤ c && c ≤ 'f') || ('A' ≤ c && c ≤ 'F')

/-- Numeric value of a hex digit character. -/
def hexDigitVal (c : Char) : ℕ :=
  if c.isDigit then c.toNat - '0'.toNat
  else if 'a' ≤ c && c ≤ 'f' then c.toNat - 'a'.toNat + 10
  else c.toNat - 'A'.toNat + 10

/-- JavaScript parseInt(s, 16) on the unsigned inputs the qMarkers take:
    value of the longest hex-digit prefix after whitespace; `none` models NaN. -/
def parseIntHex (s : String) : Option ℕ :=
  let ds := (s.data.dropWhile Char.isWhitespace).takeWhile isHexDigitChar
  if ds = [] then none
  else some (ds.foldl (fun acc c => 16 * acc + hexDigitVal c) 0)

/-- Journal record from the vendor API, as consumed by calculateJournalRpo.
    Optional fields model fields the vendor may omit (the source applies
    falsy defaults to them). -/
structure JournalData where
  journalId : ℤ
  muNumber : ℤ
  consistencyGroupId : ℤ
  journalStatus : String
  usageRate : Option ℕ
  qCount : Option ℕ
  qMarker : Option String
  byteFormatCapacity : Option String

/-- Result record of calculateJournalRpo. -/
structure RpoMetrics where
  journalId : ℤ
  muNumber : ℤ
  consistencyGroupId : ℤ
  journalStatus : String
  usageRate : ℕ
  qCount : ℕ
  qMarker : String
  totalCapacityBytes : ℤ
  pendingDataBytes : ℤ
  estimatedRpoSeconds : ℚ
  qMarkerDelta : Option ℤ
  copySpeed : ℚ
  severity : String

/-- Function calculateJournalRpo of rpoCalculator.js.  The copy speed is in
    Mbps; `none` models an undefined argument (the source treats undefined,
    0 and negative speeds alike through the truthiness-and-positive guard). -/
def calculateJournalRpo (j : JournalData) (copySpeed : Option ℚ) (drQMarker : Option String) :
    RpoMetrics :=
  let totalCapacityBytes := parseByteFormatCapacity j.byteFormatCapacity
  let usageRate := j.usageRate.getD 0
  let qCount := j.qCount.getD 0
  let qMarker := j.qMarker.getD "0"
  let pendingDataBytes := jsRound ((totalCapacityBytes : ℚ) * (usageRate : ℚ) / 100)
  let estimatedRpoSeconds : ℚ :=
    match copySpeed with
    | some s => if s ≠ 0 ∧ 0 < s then (pendingDataBytes : ℚ) / (s * 1024 * 1024 / 8) else 0
    | none => 0
  let qMarkerDelta : Option ℤ :=
    match drQMarker with
    | some dr =>
      if dr = "" then none
      else
        match parseIntHex qMarker, parseIntHex dr with
        | some a, some b => some ((a : ℤ) - (b : ℤ))
        | _, _ => none
    | none => none
  let severity := if 20 ≤ usageRate then "critical" else if 5 ≤ usageRate then "warning" else "normal"
  { journalId := j.journalId
    muNumber := j.muNumber
    consistencyGroupId := j.consistencyGroupId
    journalStatus := j.journalStatus
    usageRate := usageRate
    qCount := qCount
    qMarker := qMarker
    totalCapacityBytes := totalCapacityBytes
    pendingDataBytes := pendingDataBytes
    estimatedRpoSeconds := round2 estimatedRpoSeconds
    qMarkerDelta := qMarkerDelta
    copySpeed := copySpeed.getD 0
    severity := severity }

/-- Accumulator sumX of the trend loop: sum of the indices 0..n-1. -/
def sumIdx : ℕ → ℕ
  | 0 => 0
  | n + 1 => sumIdx n + n

/-- Accumulator sumXX of the trend loop: sum of the squared indices. -/
def sumIdxSq : ℕ → ℕ
  | 0 => 0
  | n + 1 => sumIdxSq n + n * n

/-- Accumulator sumXY of the trend loop: sum of index times value, the index
    starting at the first argument. -/
def sumIdxMul : ℕ → List ℚ → ℚ
  | _, [] => 0
  | i, y :: ys => (i : ℚ) * y + sumIdxMul (i + 1) ys

/-- Result record of determineTrend. -/
structure TrendResult where
  trend : String
  changeRate : ℚ
  dataPoints : ℕ
deriving DecidableEq

/-- Variable denominator of the trend regression: n * sumXX - sumX * sumX. -/
def trendDenom (n : ℕ) : ℚ :=
  (n : ℚ) * ((sumIdxSq n : ℕ) : ℚ) - ((sumIdx n : ℕ) : ℚ) * ((sumIdx n : ℕ) : ℚ)

/-- Variable slope of the trend regression: (n * sumXY - sumX * sumY) / denominator. -/
def trendSlope (qs : List ℚ) : ℚ :=
  ((qs.length : ℚ) * sumIdxMul 0 qs - ((sumIdx qs.length : ℕ) : ℚ) * qs.sum) /
    trendDenom qs.length

/-- Variable changeRate of the trend loop: the slope normalized by the mean
    qCount, 0 when the mean is not positive. -/
def trendRate (qs : List ℚ) : ℚ :=
  if 0 < qs.sum / (qs.length : ℚ) then trendSlope qs / (qs.sum / (qs.length : ℚ)) else 0

/-- Function determineTrend of rpoCalculator.js (threshold parameter explicit;
    the source defaults it to 0.05). -/
def determineTrend (qs : List ℚ) (threshold : ℚ) : TrendResult :=
  if qs.length < 2 then ⟨"stable", 0, qs.length⟩
  else if trendDenom qs.length = 0 then ⟨"stable", 0, qs.length⟩
  else
    ⟨if threshold < trendRate qs then "increasing"
     else if trendRate qs < -threshold then "decreasing"
     else "stable",
     ((jsRound (trendRate qs * 10000) : ℤ) : ℚ) / 10000, qs.length⟩

/-- Specification reading of the trend rate: the ordinary least-squares slope
    of the points (i, qsᵢ), written with index sums over Finset.range. -/
def olsSlope (qs : List ℚ) : ℚ :=
  ((qs.length : ℚ) * ∑ i in Finset.range qs.length, (i : ℚ) * qs.getD i 0 -
      (∑ i in Finset.range qs.length, (i : ℚ)) * ∑ i in Finset.range qs.length, qs.getD i 0) /
    ((qs.length : ℚ) * ∑ i in Finset.range qs.length, (i : ℚ) ^ 2 -
      (∑ i in Finset.range qs.length, (i : ℚ)) ^ 2)

/-- Specification reading of the fractional change rate: the least-squares
    slope divided by the mean qCount, 0 when the mean is not positive. -/
def specChangeRate (qs : List ℚ) : ℚ :=
  if 0 < qs.sum / (qs.length : ℚ) then olsSlope qs / (qs.sum / (qs.length : ℚ)) else 0

theorem sumIdx_cast (n : ℕ) : ((sumIdx n : ℕ) : ℚ) = ∑ i in Finset.range n, (i : ℚ) := by
  induction n with
  | zero => simp [sumIdx]
  | succ n ih =>
    rw [Finset.sum_range_succ, ← ih]
    simp [sumIdx]

theorem sumIdxSq_cast (n : ℕ) : ((sumIdxSq n : ℕ) : ℚ) = ∑ i in Finset.range n, (i : ℚ) ^ 2 := by
  induction n with
  | zero => simp [sumIdxSq]
  | succ n ih =>
    rw [Finset.sum_range_succ, ← ih]
    simp [sumIdxSq]
    ring

theorem list_sum_getD (qs : List ℚ) : qs.sum = ∑ i in Finset.range qs.length, qs.getD i 0 := by
  induction qs with
  | nil => simp
  | cons a l ih =>
    rw [List.sum_cons, List.length_cons, Finset.sum_range_succ', ih]
    simp [add_comm]

theorem sumIdxMul_eq (qs : List ℚ) :
    ∀ k : ℕ, sumIdxMul k qs = ∑ i in Finset.range qs.length, ((k + i : ℕ) : ℚ) * qs.getD i 0 := by
  induction qs with
  | nil => intro k; simp [sumIdxMul]
  | cons a l ih =>
    intro k
    rw [List.length_cons, Finset.sum_range_succ']
    simp only [sumIdxMul, ih (k + 1), List.getD_cons_succ, List.getD_cons_zero]
    have hc : ∀ i : ℕ, ((k + 1 + i : ℕ) : ℚ) = ((k + (i + 1) : ℕ) : ℚ) := by
      intro i; congr 1; omega
    rw [Finset.sum_congr rfl (fun i _ => by rw [hc i])]
    push_cast
    ring

theorem trendRate_eq_spec (qs : List ℚ) : trendRate qs = specChangeRate qs := by
  have hslope : trendSlope qs = olsSlope qs := by
    unfold trendSlope olsSlope trendDenom
    rw [sumIdx_cast, sumIdxSq_cast, list_sum_getD, sumIdxMul_eq qs 0]
    simp [sq]
  unfold trendRate specChangeRate
  rw [hslope]

theorem two_sumIdx (n : ℕ) : 2 * sumIdx n + n = n * n := by
  induction n with
  | zero => simp [sumIdx]
  | succ n ih => simp [sumIdx]; nlinarith [ih]

theorem six_sumIdxSq (n : ℕ) : 6 * sumIdxSq n + 3 * (n * n) = 2 * (n * n * n) + n := by
  induction n with
  | zero => simp [sumIdxSq]
  | succ n ih => simp [sumIdxSq]; nlinarith [ih]

theorem trendDenom_pos (n : ℕ) (h : 2 ≤ n) : 0 < trendDenom n := by
  have h1 : (2 : ℚ) * ((sumIdx n : ℕ) : ℚ) + (n : ℚ) = (n : ℚ) * (n : ℚ) := by
    exact_mod_cast two_sumIdx n
  have h2 : (6 : ℚ) * ((sumIdxSq n : ℕ) : ℚ) + 3 * ((n : ℚ) * (n : ℚ)) =
      2 * ((n : ℚ) * (n : ℚ) * (n : ℚ)) + (n : ℚ) := by
    exact_mod_cast six_sumIdxSq n
  have hn : (2 : ℚ) ≤ (n : ℚ) := by exact_mod_cast h
  unfold trendDenom
  nlinarith [h1, h2, hn, sq_nonneg ((n : ℚ) - 1), sq_nonneg (n : ℚ)]

/-! Session manager (`sessionManager.js`).  Time is in milliseconds since the
    epoch, modelled as a rational so the division by 1000 in the age check is
    exact.  The in-memory session store holds at most one entry per storage
    device; `getSession` is modelled as a function of that entry, the current
    time, the configuration and credential lookups, and the session the
    vendor API would return on creation. -/

/-- Cached entry of the session store. -/
structure CachedSession where
  token : String
  sessionId : ℤ
  createdAt : ℚ
  aliveTime : ℚ
deriving DecidableEq

/-- Outcome of one getSession call: the returned (or thrown) result, the new
    cache entry for the storage device, the aliveTime sent to createSession
    when a creation request was issued, and whether renewal was scheduled. -/
structure SessionOutcome where
  result : Except String (String × ℤ)
  cache : Option CachedSession
  requestedAliveTime : Option ℚ
  renewalScheduled : Bool

/-- Error message thrown when no authenticated credentials exist. -/
def credsNotFoundMsg (storageDeviceId : String) : String :=
  "No authenticated credentials found for storage " ++ storageDeviceId ++
    ". Please authenticate the storage system first."

/-- Error message thrown when the Ops Center connection is not configured. -/
def noApiConfigMsg : String :=
  "API configuration not found. Please configure the Ops Center connection first."

/-- Session-creation path of getSession: configuration check, credential
    check, createSession with DEFAULT_ALIVE_TIME = 300, cache replacement
    and renewal scheduling. -/
def getSessionCreate (storageDeviceId : String) (cached : Option CachedSession)
    (now : ℚ) (hasConfig : Bool) (hasCreds : Bool) (fresh : String × ℤ) : SessionOutcome :=
  if ¬ hasConfig then ⟨.error noApiConfigMsg, cached, none, false⟩
  else if ¬ hasCreds then ⟨.error (credsNotFoundMsg storageDeviceId), cached, none, false⟩
  else ⟨.ok fresh, some ⟨fresh.1, fresh.2, now, 300⟩, some 300, true⟩

/-- Function getSession of sessionManager.js: return the cached session while
    its age in seconds stays below aliveTime - RENEWAL_MARGIN_SECONDS (60),
    otherwise create a new session. -/
def getSession (storageDeviceId : String) (cached : Option CachedSession)
    (now : ℚ) (hasConfig : Bool) (hasCreds : Bool) (fresh : String × ℤ) : SessionOutcome :=
  match cached with
  | some s =>
    if (now - s.createdAt) / 1000 < s.aliveTime - 60 then
      ⟨.ok (s.token, s.sessionId), some s, none, false⟩
    else getSessionCreate storageDeviceId cached now hasConfig hasCreds fresh
  | none => getSessionCreate storageDeviceId cached now hasConfig hasCreds fresh

/-! Vendor API client retry wrapper (`hitachiApi.js`, function withRetry).
    An attempt either succeeds or throws a JavaScript error that may carry an
    HTTP response; the wrapper is modelled as a function of the sequence of
    attempt outcomes. -/

/-- Error raised by one request attempt: a plain network error, or an error
    carrying an HTTP response with status and body. -/
inductive JsError where
  | network (msg : String)
  | http (status : ℕ) (body : String)
deriving DecidableEq

/-- Client errors that are never retried: 4xx other than 408 and 429. -/
def JsError.isFatal : JsError → Bool
  | .network _ => false
  | .http status _ => 400 ≤ status && status < 500 && status ≠ 408 && status ≠ 429

/-- How a withRetry call fails: rethrowing the fatal client error directly,
    or wrapping the last error once all attempts are exhausted. -/
inductive RetryFailure where
  | immediate (e : JsError)
  | exhausted (e : JsError)
deriving DecidableEq

/-- Trace of one withRetry call: the final result, the number of attempts
    performed, and the backoff delays (in ms) waited between attempts. -/
structure RetryTrace (α : Type) where
  result : Except RetryFailure α
  attempts : ℕ
  delays : List ℕ

/-- Loop body of withRetry, from a given attempt index with a given number of
    retries left; the delay before retry number a is 1000 * 2 ^ a ms. -/
def withRetryAux {α : Type} (outcomes : ℕ → Except JsError α) :
    ℕ → ℕ → RetryTrace α
  | attempt, left =>
    match outcomes attempt with
    | .ok a => ⟨.ok a, 1, []⟩
    | .error e =>
      if e.isFatal then ⟨.error (.immediate e), 1, []⟩
      else
        match left with
        | 0 => ⟨.error (.exhausted e), 1, []⟩
        | left' + 1 =>
          let r := withRetryAux outcomes (attempt + 1) left'
          ⟨r.result, r.attempts + 1, 1000 * 2 ^ attempt :: r.delays⟩

/-- Function withRetry of hitachiApi.js: MAX_RETRIES = 3, so 4 attempts total. -/
def withRetry {α : Type} (outcomes : ℕ → Except JsError α) : RetryTrace α :=
  withRetryAux outcomes 0 3

/-! Discovery pagination (`discovery.js`, function discoverPairs, and the
    pair loop of `poller.js`): cursor-based reads of the remote-copypairs
    endpoint in batches of BATCH_SIZE = 500, keeping the UR pairs. -/

/-- Replication pair record returned by the remote-copypairs endpoint. -/
structure PairRec where
  pvolLdevId : ℕ
  svolLdevId : ℕ
  replicationType : String
  consistencyGroupId : Option ℤ
  pvolStatus : String
  svolStatus : String
deriving DecidableEq

/-- One page request issued by the pagination loop. -/
structure PageRequest where
  headLdevId : ℕ
  count : ℕ
deriving DecidableEq

/-- Pagination loop of discoverPairs: the server is a function from
    (headLdevId, count) to the returned batch; the fuel bounds the number of
    loop iterations (the loop itself has no such bound).  Returns the page
    requests issued and the UR pairs collected. -/
def discoverPairsAux (server : ℕ → ℕ → List PairRec) :
    ℕ → ℕ → List PageRequest × List PairRec
  | _, 0 => ([], [])
  | cursor, fuel + 1 =>
    let batch := server cursor 500
    if batch = [] then ([⟨cursor, 500⟩], [])
    else if batch.length < 500 then
      ([⟨cursor, 500⟩], batch.filter (fun p => p.replicationType == "UR"))
    else
      let next := (batch.getLast?.map (fun p => p.pvolLdevId)).getD 0 + 1
      let rest := discoverPairsAux server next fuel
      (⟨cursor, 500⟩ :: rest.1,
        batch.filter (fun p => p.replicationType == "UR") ++ rest.2)

/-- Function discoverPairs: the loop starts at headLdevId = 0. -/
def discoverPairs (server : ℕ → ℕ → List PairRec) (fuel : ℕ) :
    List PageRequest × List PairRec :=
  discoverPairsAux server 0 fuel

/-- UR pair number i of the pagination example. -/
def examplePair (i : ℕ) : PairRec := ⟨i, i, "UR", some 0, "PAIR", "PAIR"⟩

/-- Concrete pair population for the pagination example: 1200 UR pairs with
    pvolLdevIds 0..1199. -/
def examplePairs : List PairRec := (List.range 1200).map examplePair

/-- Server behaviour over examplePairs: pairs at or after the cursor, at most
    count of them. -/
def exampleServer (headLdevId count : ℕ) : List PairRec :=
  (List.range' headLdevId (min count (1200 - headLdevId))).map examplePair

/-! Consistency-group assembly (`discovery.js`, function
    discoverConsistencyGroups): group pairs and non-SMPL journals by
    consistency-group id, and derive each group's volume count. -/

/-- Journal record as grouped by discoverConsistencyGroups. -/
structure JournalRec where
  consistencyGroupId : Option ℤ
  journalStatus : String
  numOfLdevs : Option ℕ
deriving DecidableEq

/-- Pairs of one consistency group, in order (the insertion-ordered map of
    the source). -/
def cgPairsFor (pairs : List PairRec) (cg : ℤ) : List PairRec :=
  pairs.filter (fun p => p.consistencyGroupId == some cg)

/-- Journals of one consistency group, in order. -/
def cgJournalsFor (journals : List JournalRec) (cg : ℤ) : List JournalRec :=
  journals.filter (fun j => j.consistencyGroupId == some cg)

/-- Volume count of one consistency group: the pair count, falling back to
    the sum of the journals' numOfLdevs when no pairs were found. -/
def volumeCountFor (pairs : List PairRec) (journals : List JournalRec) (cg : ℤ) : ℕ :=
  let cgPairs := cgPairsFor pairs cg
  let cgJournals := cgJournalsFor journals cg
  if cgPairs.length = 0 ∧ 0 < cgJournals.length then
    (cgJournals.map (fun j => j.numOfLdevs.getD 0)).sum
  else cgPairs.length

/-- Consistency group as assembled by discovery (the fields the claims
    concern). -/
structure CGroup where
  consistencyGroupId : ℤ
  volumeCount : ℕ
  journalCount : ℕ
deriving DecidableEq

/-- Consistency-group ids present among the pairs and journals (entries with
    a null id are skipped); the source sorts the assembled groups by id. -/
def cgIdsOf (pairs : List PairRec) (journals : List JournalRec) : List ℤ :=
  List.insertionSort (fun a b => a ≤ b)
    (((pairs.filterMap (fun p => p.consistencyGroupId)) ++
        (journals.filterMap (fun j => j.consistencyGroupId))).dedup)

/-- Core of discoverConsistencyGroups: filter out SMPL journals, merge the
    group ids of pairs and journals, and assemble one group per id. -/
def discoverConsistencyGroups (pairs : List PairRec) (journalsRaw : List JournalRec) :
    List CGroup :=
  let journals := journalsRaw.filter (fun j => j.journalStatus ≠ "SMPL")
  (cgIdsOf pairs journals).map (fun cg =>
    ⟨cg, volumeCountFor pairs journals cg, (cgJournalsFor journals cg).length⟩)

/-! Poll cycle (`poller.js`, functions pollCycle and pollStorage): each
    authenticated storage is processed in order; a throw from one storage is
    caught and recorded, and the loop continues; the cycle then stamps the
    single lastPollTime. -/

/-- Poller state touched by pollCycle. -/
structure PollState where
  isPolling : Bool
  lastPollTime : Option ℕ
  lastPollError : Option String
deriving DecidableEq

/-- Per-storage loop of pollCycle: processing either completes or throws a
    message; every storage is visited, errors are collected in order.
    Returns the storages processed and the error summaries. -/
def pollLoop (process : String → Except String Unit) :
    List String → List String × List (String × String)
  | [] => ([], [])
  | s :: rest =>
    let r := pollLoop process rest
    match process s with
    | .ok _ => (s :: r.1, r.2)
    | .error m => (s :: r.1, (s, m) :: r.2)

/-- Function pollCycle: guard on isPolling, configuration and storage checks,
    the per-storage loop, error summary, and the lastPollTime stamp.
    Returns the new state, the storages processed and the per-storage errors. -/
def pollCycle (hasConfig : Bool) (storages : List String)
    (process : String → Except String Unit) (now : ℕ) (st : PollState) :
    PollState × List String × List (String × String) :=
  if st.isPolling then (st, [], [])
  else if ¬ hasConfig then (⟨false, st.lastPollTime, none⟩, [], [])
  else if storages = [] then (⟨false, st.lastPollTime, none⟩, [], [])
  else
    let r := pollLoop process storages
    let errMsg : Option String :=
      if r.2 = [] then none
      else some (toString r.2.length ++ " storage(s) failed: " ++
        String.intercalate (", ") (r.2.map (fun e => e.1)))
    (⟨false, some now, errMsg⟩, r.1, r.2)

/-! Alert store (`poller.js`, function createAlert): an insert-only table of
    alerts, deduplicated against unacknowledged alerts of the same
    (group, type, severity). -/

/-- Row of the alerts table. -/
structure AlertRow where
  cgId : ℤ
  alertType : String
  severity : String
  message : String
  acknowledged : Bool
deriving DecidableEq

/-- Predicate of the dedup query: same group, type and severity, not yet
    acknowledged. -/
def alertMatches (a : AlertRow) (cg : ℤ) (ty sev : String) : Bool :=
  a.cgId == cg && a.alertType == ty && a.severity == sev && !a.acknowledged

/-- Function createAlert: insert a new unacknowledged row unless an
    unacknowledged row with the same (group, type, severity) exists. -/
def createAlert (store : List AlertRow) (cg : ℤ) (ty sev msg : String) : List AlertRow :=
  if store.any (fun a => alertMatches a cg ty sev) then store
  else store ++ [⟨cg, ty, sev, msg, false⟩]

/-- Number of unacknowledged rows of one (group, type, severity). -/
def unackCount (store : List AlertRow) (cg : ℤ) (ty sev : String) : ℕ :=
  (store.filter (fun a => alertMatches a cg ty sev)).length

/-- Dedup invariant of the alert store: at most one unacknowledged row per
    (group, type, severity). -/
def dedupInvariant (store : List AlertRow) : Prop :=
  ∀ (cg : ℤ) (ty sev : String), unackCount store cg ty sev ≤ 1

/-- Arguments of one createAlert call. -/
structure AlertCall where
  cg : ℤ
  ty : String
  sev : String
  msg : String

/-- Replay of a sequence of createAlert calls against an empty store. -/
def runAlerts (calls : List AlertCall) : List AlertRow :=
  calls.foldl (fun st c => createAlert st c.cg c.ty c.sev c.msg) []

/-- Concrete journal record for witness instantiations. -/
def exampleJournal : JournalData :=
  ⟨1, 0, 10, "PJNN", some 6, some 100, some ("a0"), some ("3.87 T")⟩

/-- Attempt outcomes that always fail with a transient network error. -/
def transientOutcomes : ℕ → Except JsError Unit :=
  fun _ => .error (.network ("socket timeout"))

/-- Attempt outcomes that always fail with HTTP 404. -/
def fatalOutcomes : ℕ → Except JsError Unit :=
  fun _ => .error (.http 404 ("not found"))

/-- Per-storage processing where endpoint A throws and the others succeed. -/
def examplePollProcess : String → Except String Unit :=
  fun s => if s = "A" then .error ("journal read failed") else .ok ()

/-- Concrete pair table for the consistency-group witness: one UR pair in
    group 1. -/
def examplePairList : List PairRec := [⟨10, 20, "UR", some 1, "PAIR", "PAIR"⟩]

/-- Concrete journal table for the consistency-group witness: journals in
    groups 1, 2 and an unused SMPL mirror in group 3. -/
def exampleJournalList : List JournalRec :=
  [⟨some 1, "PJNN", some 3⟩, ⟨some 2, "PJNN", some 7⟩, ⟨some 3, "SMPL", some 9⟩]

/-! Helper lemmas about the capacity parser. -/

theorem takeWhile_all {p : Char → Bool} :
    ∀ l : List Char, (∀ x ∈ l, p x = true) → l.takeWhile p = l ∧ l.dropWhile p = []
  | [], _ => by simp
  | d :: ds, h => by
    have hd : p d = true := h d (by simp)
    have ih := takeWhile_all ds (fun x hx => h x (by simp [hx]))
    simp [List.takeWhile_cons, List.dropWhile_cons, hd, ih.1, ih.2]

theorem takeWhile_append_cons {p : Char → Bool} :
    ∀ (ds : List Char) (c : Char) (rest : List Char),
      (∀ x ∈ ds, p x = true) → p c = false →
      (ds ++ c :: rest).takeWhile p = ds ∧ (ds ++ c :: rest).dropWhile p = c :: rest
  | [], c, rest, _, hc => by simp [List.takeWhile_cons, List.dropWhile_cons, hc]
  | d :: ds, c, rest, hds, hc => by
    have hd : p d = true := hds d (by simp)
    have ih := takeWhile_append_cons ds c rest (fun x hx => hds x (by simp [hx])) hc
    simp [List.takeWhile_cons, List.dropWhile_cons, hd, ih.1, ih.2]

theorem trimList_eq_self (cs : List Char)
    (h1 : ∀ c, cs.head? = some c → c.isWhitespace = false)
    (h2 : ∀ c, cs.getLast? = some c → c.isWhitespace = false) :
    trimList cs = cs := by
  unfold trimList
  have hd : cs.dropWhile Char.isWhitespace = cs := by
    cases cs with
    | nil => rfl
    | cons a t => simp [List.dropWhile_cons, h1 a rfl]
  rw [hd]
  have hr : cs.reverse.dropWhile Char.isWhitespace = cs.reverse := by
    cases hrev : cs.reverse with
    | nil => rfl
    | cons b t =>
      have hb : cs.getLast? = some b := by
        rw [← List.head?_reverse, hrev]
        rfl
      simp [List.dropWhile_cons, h2 b hb]
  rw [hr, List.reverse_reverse]

theorem isNumChar_not_ws {c : Char} (h : isNumChar c = true) : c.isWhitespace = false := by
  cases hw : c.isWhitespace
  · rfl
  · exfalso
    have hcases := hw
    simp only [Char.isWhitespace, Bool.or_eq_true, decide_eq_true_eq] at hcases
    rcases hcases with ((h1 | h1) | h1) | h1 <;> subst h1 <;> exact absurd h (by decide)

theorem matchCapacity_num_unit (ds : List Char) (u : Char)
    (hds : ds ≠ []) (hnum : ∀ c ∈ ds, isNumChar c = true)
    (hu2 : u.isWhitespace = false) (hu3 : isUnitChar u = true) :
    matchCapacity (ds ++ [' ', u]) = some (ds, u) := by
  have hsp : isNumChar ' ' = false := by decide
  have hws : (' ' : Char).isWhitespace = true := by decide
  have h := takeWhile_append_cons ds ' ' [u] hnum hsp
  simp only [matchCapacity]
  rw [h.1, h.2]
  simp [List.dropWhile_cons, hws, hu2, hds, hu3]

theorem matchCapacity_num_unit_b (ds : List Char) (u b : Char)
    (hds : ds ≠ []) (hnum : ∀ c ∈ ds, isNumChar c = true)
    (hu2 : u.isWhitespace = false) (hu3 : isUnitChar u = true)
    (hb : b = 'B' ∨ b = 'b') :
    matchCapacity (ds ++ [' ', u, b]) = some (ds, u) := by
  have hsp : isNumChar ' ' = false := by decide
  have hws : (' ' : Char).isWhitespace = true := by decide
  have h := takeWhile_append_cons ds ' ' [u, b] hnum hsp
  simp only [matchCapacity]
  rw [h.1, h.2]
  rcases hb with hb | hb <;> subst hb <;>
    simp [List.dropWhile_cons, hws, hu2, hds, hu3]

theorem parseCapacity_eval (ds : List Char) (u : Char) (tail : List Char)
    (hds : ds ≠ []) (hnum : ∀ c ∈ ds, isNumChar c = true)
    (hlast : ∀ c, (ds ++ ' ' :: tail).getLast? = some c → c.isWhitespace = false)
    (hmatch : matchCapacity (ds ++ ' ' :: tail) = some (ds, u)) :
    parseByteFormatCapacity (some (String.mk (ds ++ ' ' :: tail))) = capResult ds u := by
  have hne : (ds ++ ' ' :: tail) ≠ [] := by simp
  have htrim : trimList (ds ++ ' ' :: tail) = ds ++ ' ' :: tail := by
    apply trimList_eq_self
    · intro x hx
      cases ds with
      | nil => exact absurd rfl hds
      | cons a t =>
        have hax : a = x := by simpa using hx
        subst hax
        exact isNumChar_not_ws (hnum a (by simp))
    · exact hlast
  have hdata : (String.mk (ds ++ ' ' :: tail)).data = ds ++ ' ' :: tail := rfl
  rw [parseByteFormatCapacity, hdata, if_neg hne]
  unfold parseCapacityList capResult
  rw [htrim, hmatch]

theorem mem_of_getLast?_eq {l : List Char} {c : Char} (h : l.getLast? = some c) : c ∈ l := by
  rw [← List.head?_reverse] at h
  cases hr : l.reverse with
  | nil => rw [hr] at h; cases h
  | cons a t =>
    rw [hr] at h
    have hac : a = c := by simpa using h
    subst hac
    have hmem : a ∈ l.reverse := by rw [hr]; simp
    simpa using hmem

theorem getLast?_append_two (ds : List Char) (x y : Char) :
    (ds ++ [x, y]).getLast? = some y := by
  rw [← List.head?_reverse]
  simp

theorem getLast?_append_three (ds : List Char) (x y z : Char) :
    (ds ++ [x, y, z]).getLast? = some z := by
  rw [← List.head?_reverse]
  simp

theorem matchCapacity_all_num (ds : List Char) (hds : ds ≠ [])
    (hnum : ∀ c ∈ ds, isNumChar c = true) : matchCapacity ds = none := by
  have hta := takeWhile_all ds hnum
  simp only [matchCapacity]
  rw [hta.1, hta.2]
  simp [hds]

theorem parseCapacity_bare_number (ds : List Char) (hds : ds ≠ [])
    (hnum : ∀ c ∈ ds, isNumChar c = true) :
    parseByteFormatCapacity (some (String.mk ds)) = 0 := by
  have hws : ∀ c ∈ ds, c.isWhitespace = false := fun c hc => isNumChar_not_ws (hnum c hc)
  have htrim : trimList ds = ds := by
    apply trimList_eq_self
    · intro x hx
      cases ds with
      | nil => exact absurd rfl hds
      | cons a t =>
        have hax : a = x := by simpa using hx
        subst hax
        exact hws a (by simp)
    · intro x hx
      exact hws x (mem_of_getLast?_eq hx)
  have hdata : (String.mk ds).data = ds := rfl
  rw [parseByteFormatCapacity, hdata, if_neg hds]
  unfold parseCapacityList
  rw [htrim, matchCapacity_all_num ds hds hnum]

/-- C2: parseByteFormatCapacity maps a string of the form number, space,
    unit letter of binary rank k among B/K/M/G/T/P, to
    round(number * 1024 ^ k); in particular "3.87 T" parses to
    round(3.87 * 1024 ^ 4); and inputs without the number-plus-unit shape,
    such as "garbage", a non-string, or the empty string, parse to 0. -/
theorem parseByteFormatCapacity_spec :
    (∀ (ds : List Char) (v : ℚ) (k : Fin 6), ds ≠ [] →
      (∀ c ∈ ds, isNumChar c = true) → parseFloatQ ds = some v →
      parseByteFormatCapacity (some (String.mk (ds ++ [' ', unitLetter k]))) =
        jsRound (v * 1024 ^ (k : ℕ))) ∧
    parseByteFormatCapacity (some ("3.87 T")) = jsRound ((387 : ℚ) / 100 * 1024 ^ 4) ∧
    parseByteFormatCapacity (some ("garbage")) = 0 ∧
    parseByteFormatCapacity none = 0 ∧
    parseByteFormatCapacity (some ("")) = 0 ∧
    (∀ s : String, matchCapacity (trimList s.data) = none →
      parseByteFormatCapacity (some s) = 0) := by
  have hpart1 : ∀ (ds : List Char) (v : ℚ) (k : Fin 6), ds ≠ [] →
      (∀ c ∈ ds, isNumChar c = true) → parseFloatQ ds = some v →
      parseByteFormatCapacity (some (String.mk (ds ++ [' ', unitLetter k]))) =
        jsRound (v * 1024 ^ (k : ℕ)) := by
    intro ds v k hds hnum hv
    have hu2 : (unitLetter k).isWhitespace = false := by fin_cases k <;> decide
    have hu3 : isUnitChar (unitLetter k) = true := by fin_cases k <;> decide
    have hmult : sizeMultiplier (unitLetter k).toUpper = 1024 ^ (k : ℕ) := by
      fin_cases k <;> decide
    have hm := matchCapacity_num_unit ds (unitLetter k) hds hnum hu2 hu3
    have hlast : ∀ c, (ds ++ ' ' :: [unitLetter k]).getLast? = some c →
        c.isWhitespace = false := by
      intro c hc
      have hgl : (ds ++ [' ', unitLetter k]).getLast? = some (unitLetter k) :=
        getLast?_append_two ds ' ' (unitLetter k)
      rw [hgl] at hc
      cases hc
      exact hu2
    have heval := parseCapacity_eval ds (unitLetter k) [unitLetter k] hds hnum hlast hm
    rw [heval]
    have hnz : (1024 : ℕ) ^ (k : ℕ) ≠ 0 := pow_ne_zero _ (by norm_num)
    simp only [capResult, hv, hmult]
    rw [if_neg hnz]
    norm_cast
  have hpart6 : ∀ s : String, matchCapacity (trimList s.data) = none →
      parseByteFormatCapacity (some s) = 0 := by
    intro s hm
    by_cases hempty : s.data = [] <;>
      simp [parseByteFormatCapacity, parseCapacityList, hempty, hm]
  refine ⟨hpart1, ?_, ?_, rfl, by decide, hpart6⟩
  · have hv387 : parseFloatQ ['3', '.', '8', '7'] = some ((387 : ℚ) / 100) := by
      simp [parseFloatQ, digitsVal, fracVal, digitVal]
      norm_num
    have h2 := hpart1 ['3', '.', '8', '7'] ((387 : ℚ) / 100) ⟨4, by norm_num⟩
      (by decide) (by decide) hv387
    have hstr : String.mk (['3', '.', '8', '7'] ++ [' ', unitLetter ⟨4, by norm_num⟩]) =
        "3.87 T" := by decide
    rw [hstr] at h2
    simpa using h2
  · exact hpart6 ("garbage") (by decide)

/-- Witness for C2 at a concrete input: "5 T" parses to round(5 * 1024^4) and
    "xyz" parses to 0. -/
theorem parseByteFormatCapacity_spec_witness :
    parseByteFormatCapacity (some (String.mk (['5'] ++ [' ', unitLetter ⟨4, by norm_num⟩]))) =
      jsRound ((5 : ℚ) * 1024 ^ (4 : ℕ)) ∧
    parseByteFormatCapacity (some ("xyz")) = 0 := by
  constructor
  · have h := parseByteFormatCapacity_spec.1 ['5'] 5 ⟨4, by norm_num⟩ (by decide) (by decide)
      (by simp [parseFloatQ, digitsVal, digitVal])
    simpa using h
  · exact parseByteFormatCapacity_spec.2.2.2.2.2 ("xyz") (by decide)

/-- C10: for a numeric literal ds and a unit letter of rank k, the strings
    consisting of the number, a space and the unit parse identically with and
    without a trailing B, and in lower case; a bare number with no unit
    parses to 0 rather than to that number of bytes. -/
theorem parseCapacity_unit_variants :
    ∀ (ds : List Char) (k : Fin 6), ds ≠ [] → (∀ c ∈ ds, isNumChar c = true) →
      (parseByteFormatCapacity (some (String.mk (ds ++ [' ', unitLetter k, 'B']))) =
          parseByteFormatCapacity (some (String.mk (ds ++ [' ', unitLetter k]))) ∧
        parseByteFormatCapacity (some (String.mk (ds ++ [' ', (unitLetter k).toLower]))) =
          parseByteFormatCapacity (some (String.mk (ds ++ [' ', unitLetter k]))) ∧
        parseByteFormatCapacity (some (String.mk (ds ++ [' ', (unitLetter k).toLower, 'b']))) =
          parseByteFormatCapacity (some (String.mk (ds ++ [' ', unitLetter k]))) ∧
        ((∀ c ∈ ds, c.isDigit = true) →
          parseByteFormatCapacity (some (String.mk ds)) = 0)) := by
  intro ds k hds hnum
  have hu2 : (unitLetter k).isWhitespace = false := by fin_cases k <;> decide
  have hu3 : isUnitChar (unitLetter k) = true := by fin_cases k <;> decide
  have hl2 : ((unitLetter k).toLower).isWhitespace = false := by fin_cases k <;> decide
  have hl3 : isUnitChar ((unitLetter k).toLower) = true := by fin_cases k <;> decide
  have hml : ((unitLetter k).toLower).toUpper = (unitLetter k).toUpper := by
    fin_cases k <;> decide
  have hBws : ('B' : Char).isWhitespace = false := by decide
  have hbws : ('b' : Char).isWhitespace = false := by decide
  have hbase : parseByteFormatCapacity (some (String.mk (ds ++ [' ', unitLetter k]))) =
      capResult ds (unitLetter k) := by
    apply parseCapacity_eval ds (unitLetter k) [unitLetter k] hds hnum
    · intro c hc
      rw [getLast?_append_two ds ' ' (unitLetter k)] at hc
      cases hc
      exact hu2
    · exact matchCapacity_num_unit ds (unitLetter k) hds hnum hu2 hu3
  have hcapl : capResult ds ((unitLetter k).toLower) = capResult ds (unitLetter k) := by
    unfold capResult
    rw [hml]
  refine ⟨?_, ?_, ?_, ?_⟩
  · rw [hbase]
    apply parseCapacity_eval ds (unitLetter k) [unitLetter k, 'B'] hds hnum
    · intro c hc
      rw [getLast?_append_three ds ' ' (unitLetter k) 'B'] at hc
      cases hc
      exact hBws
    · exact matchCapacity_num_unit_b ds (unitLetter k) 'B' hds hnum hu2 hu3 (Or.inl rfl)
  · rw [hbase, ← hcapl]
    apply parseCapacity_eval ds ((unitLetter k).toLower) [(unitLetter k).toLower] hds hnum
    · intro c hc
      rw [getLast?_append_two ds ' ' ((unitLetter k).toLower)] at hc
      cases hc
      exact hl2
    · exact matchCapacity_num_unit ds ((unitLetter k).toLower) hds hnum hl2 hl3
  · rw [hbase, ← hcapl]
    apply parseCapacity_eval ds ((unitLetter k).toLower) [(unitLetter k).toLower, 'b'] hds hnum
    · intro c hc
      rw [getLast?_append_three ds ' ' ((unitLetter k).toLower) 'b'] at hc
      cases hc
      exact hbws
    · exact matchCapacity_num_unit_b ds ((unitLetter k).toLower) 'b' hds hnum hl2 hl3 (Or.inr rfl)
  · intro hdig
    exact parseCapacity_bare_number ds hds hnum

/-- Witness for C10 at a concrete input: the four renderings of 5 terabytes,
    and the bare "1024". -/
theorem parseCapacity_unit_variants_witness :
    (parseByteFormatCapacity (some (String.mk (['5'] ++ [' ', unitLetter ⟨4, by norm_num⟩, 'B']))) =
        parseByteFormatCapacity (some (String.mk (['5'] ++ [' ', unitLetter ⟨4, by norm_num⟩]))) ∧
      parseByteFormatCapacity
          (some (String.mk (['5'] ++ [' ', (unitLetter ⟨4, by norm_num⟩).toLower]))) =
        parseByteFormatCapacity (some (String.mk (['5'] ++ [' ', unitLetter ⟨4, by norm_num⟩]))) ∧
      parseByteFormatCapacity
          (some (String.mk (['5'] ++ [' ', (unitLetter ⟨4, by norm_num⟩).toLower, 'b']))) =
        parseByteFormatCapacity (some (String.mk (['5'] ++ [' ', unitLetter ⟨4, by norm_num⟩]))) ∧
      ((∀ c ∈ ['1', '0', '2', '4'], c.isDigit = true) →
        parseByteFormatCapacity (some (String.mk ['1', '0', '2', '4'])) = 0)) ∧
    parseByteFormatCapacity (some (String.mk ['1', '0', '2', '4'])) = 0 := by
  constructor
  · have h5 := parseCapacity_unit_variants ['5'] ⟨4, by norm_num⟩ (by decide) (by decide)
    have h1024 := parseCapacity_unit_variants ['1', '0', '2', '4'] ⟨4, by norm_num⟩
      (by decide) (by decide)
    exact ⟨h5.1, h5.2.1, h5.2.2.1, h1024.2.2.2⟩
  · exact (parseCapacity_unit_variants ['1', '0', '2', '4'] ⟨4, by norm_num⟩
      (by decide) (by decide)).2.2.2 (by decide)

theorem round2_zero : round2 0 = 0 := by
  unfold round2 jsRound
  norm_num

/-- C1: for a journal record with integer usage rate u and capacity string c,
    calculateJournalRpo returns pendingDataBytes = round(parsed bytes * u / 100);
    estimatedRpoSeconds = pendingDataBytes / (s * 1024 * 1024 / 8) rounded to
    two decimals when the copy speed s is positive, and 0 when the copy speed
    is unknown or 0; and severity critical when u ≥ 20, warning when
    5 ≤ u < 20, else normal. -/
theorem calculateJournalRpo_spec (j : JournalData) (u : ℕ) (c : String)
    (copySpeed : Option ℚ) (dr : Option String)
    (hu : j.usageRate = some u) (hc : j.byteFormatCapacity = some c) :
    (calculateJournalRpo j copySpeed dr).pendingDataBytes =
      jsRound ((parseByteFormatCapacity (some c) : ℚ) * (u : ℚ) / 100) ∧
    (∀ s : ℚ, copySpeed = some s → 0 < s →
      (calculateJournalRpo j copySpeed dr).estimatedRpoSeconds =
        round2 (((calculateJournalRpo j copySpeed dr).pendingDataBytes : ℚ) /
          (s * 1024 * 1024 / 8))) ∧
    (copySpeed = none ∨ copySpeed = some 0 →
      (calculateJournalRpo j copySpeed dr).estimatedRpoSeconds = 0) ∧
    (calculateJournalRpo j copySpeed dr).severity =
      (if 20 ≤ u then "critical" else if 5 ≤ u then "warning" else "normal") := by
  refine ⟨?_, ?_, ?_, ?_⟩
  · simp [calculateJournalRpo, hu, hc]
  · rintro s rfl hpos
    have h1 : s ≠ 0 := ne_of_gt hpos
    simp [calculateJournalRpo, hu, hc, h1, hpos]
  · rintro (rfl | rfl)
    · simp [calculateJournalRpo, hu, hc, round2_zero]
    · simp [calculateJournalRpo, hu, hc, round2_zero]
  · simp [calculateJournalRpo, hu, hc]

/-- Witness for C1 at a concrete journal: usage rate 6, capacity "3.87 T",
    copy speed 256 Mbps (and unknown copy speed for the zero case). -/
theorem calculateJournalRpo_spec_witness :
    (calculateJournalRpo exampleJournal (some 256) none).pendingDataBytes =
      jsRound ((parseByteFormatCapacity (some ("3.87 T")) : ℚ) * (6 : ℚ) / 100) ∧
    (calculateJournalRpo exampleJournal (some 256) none).estimatedRpoSeconds =
      round2 (((calculateJournalRpo exampleJournal (some 256) none).pendingDataBytes : ℚ) /
        ((256 : ℚ) * 1024 * 1024 / 8)) ∧
    (calculateJournalRpo exampleJournal none none).estimatedRpoSeconds = 0 ∧
    (calculateJournalRpo exampleJournal (some 256) none).severity = "warning" := by
  have h := calculateJournalRpo_spec exampleJournal 6 ("3.87 T") (some 256) none rfl rfl
  have h0 := calculateJournalRpo_spec exampleJournal 6 ("3.87 T") none none rfl rfl
  refine ⟨h.1, h.2.1 256 rfl (by decide), h0.2.2.1 (Or.inl rfl), ?_⟩
  rw [h.2.2.2]
  decide

/-- C3: determineTrend returns stable with rate 0 on fewer than 2 points; on
    2 or more points it classifies the least-squares slope normalized by the
    mean (rate 0 when the mean is not positive) against the 0.05 threshold;
    [100,200,300,400,500] classifies increasing and [500,500,500] stable. -/
theorem determineTrend_spec (qs : List ℚ) :
    (qs.length < 2 → determineTrend qs (5 / 100) = ⟨"stable", 0, qs.length⟩) ∧
    (2 ≤ qs.length →
      determineTrend qs (5 / 100) =
        ⟨if 5 / 100 < specChangeRate qs then "increasing"
          else if specChangeRate qs < -(5 / 100) then "decreasing"
          else "stable",
          ((jsRound (specChangeRate qs * 10000) : ℤ) : ℚ) / 10000, qs.length⟩) ∧
    (determineTrend [100, 200, 300, 400, 500] (5 / 100)).trend = "increasing" ∧
    (determineTrend [500, 500, 500] (5 / 100)).trend = "stable" := by
  refine ⟨?_, ?_, ?_, ?_⟩
  · intro h
    rw [determineTrend, if_pos h]
  · intro h
    have hlen : ¬ qs.length < 2 := not_lt.mpr h
    have hdne : trendDenom qs.length ≠ 0 := ne_of_gt (trendDenom_pos qs.length h)
    rw [determineTrend, if_neg hlen, if_neg hdne, trendRate_eq_spec]
  · have h1 : sumIdx 5 = 10 := by decide
    have h2 : sumIdxSq 5 = 30 := by decide
    have hsum : ([100, 200, 300, 400, 500] : List ℚ).sum = 1500 := by
      norm_num [List.sum_cons]
    have hXY : sumIdxMul 0 ([100, 200, 300, 400, 500] : List ℚ) = 4000 := by
      norm_num [sumIdxMul]
    have hden : trendDenom 5 = 50 := by
      norm_num [trendDenom, h1, h2]
    have hslope : trendSlope ([100, 200, 300, 400, 500] : List ℚ) = 100 := by
      norm_num [trendSlope, hXY, hsum, hden, h1]
    have hrate : trendRate ([100, 200, 300, 400, 500] : List ℚ) = 1 / 3 := by
      norm_num [trendRate, hslope, hsum]
    norm_num [determineTrend, hden, hrate]
  · have h1 : sumIdx 3 = 3 := by decide
    have h2 : sumIdxSq 3 = 5 := by decide
    have hsum : ([500, 500, 500] : List ℚ).sum = 1500 := by
      norm_num [List.sum_cons]
    have hXY : sumIdxMul 0 ([500, 500, 500] : List ℚ) = 1500 := by
      norm_num [sumIdxMul]
    have hden : trendDenom 3 = 6 := by
      norm_num [trendDenom, h1, h2]
    have hslope : trendSlope ([500, 500, 500] : List ℚ) = 0 := by
      norm_num [trendSlope, hXY, hsum, hden, h1]
    have hrate : trendRate ([500, 500, 500] : List ℚ) = 0 := by
      norm_num [trendRate, hslope, hsum]
    norm_num [determineTrend, hden, hrate]

/-- Witness for C3 at concrete inputs: the empty history and the increasing
    example. -/
theorem determineTrend_spec_witness :
    determineTrend [] (5 / 100) = ⟨"stable", 0, 0⟩ ∧
    determineTrend ([100, 200, 300, 400, 500] : List ℚ) (5 / 100) =
      ⟨if 5 / 100 < specChangeRate ([100, 200, 300, 400, 500] : List ℚ) then "increasing"
        else if specChangeRate ([100, 200, 300, 400, 500] : List ℚ) < -(5 / 100) then
          "decreasing"
        else "stable",
        ((jsRound (specChangeRate ([100, 200, 300, 400, 500] : List ℚ) * 10000) : ℤ) : ℚ) /
          10000,
        5⟩ := by
  constructor
  · exact (determineTrend_spec []).1 (by decide)
  · have h := (determineTrend_spec ([100, 200, 300, 400, 500] : List ℚ)).2.1 (by decide)
    simpa using h

/-! Lemmas about the retry wrapper. -/

theorem withRetryAux_attempts_pos {α : Type} (outcomes : ℕ → Except JsError α)
    (attempt left : ℕ) : 1 ≤ (withRetryAux outcomes attempt left).attempts := by
  unfold withRetryAux
  cases h : outcomes attempt with
  | ok a => simp
  | error e =>
    by_cases hf : e.isFatal = true
    · simp [hf]
    · cases left with
      | zero => simp [hf]
      | succ l => simp [hf]

theorem withRetryAux_attempts_le {α : Type} (outcomes : ℕ → Except JsError α) :
    ∀ left attempt : ℕ, (withRetryAux outcomes attempt left).attempts ≤ left + 1 := by
  intro left
  induction left with
  | zero =>
    intro attempt
    unfold withRetryAux
    cases h : outcomes attempt with
    | ok a => simp
    | error e =>
      by_cases hf : e.isFatal = true
      · simp [hf]
      · simp [hf]
  | succ l ih =>
    intro attempt
    unfold withRetryAux
    cases h : outcomes attempt with
    | ok a => simp
    | error e =>
      by_cases hf : e.isFatal = true
      · simp [hf]
      · simpa [hf] using Nat.succ_le_succ (ih (attempt + 1))

theorem withRetryAux_delays {α : Type} (outcomes : ℕ → Except JsError α) :
    ∀ left attempt : ℕ,
      (withRetryAux outcomes attempt left).delays =
        (List.range ((withRetryAux outcomes attempt left).attempts - 1)).map
          (fun i => 1000 * 2 ^ (attempt + i)) := by
  intro left
  induction left with
  | zero =>
    intro attempt
    unfold withRetryAux
    cases h : outcomes attempt with
    | ok a => simp
    | error e =>
      by_cases hf : e.isFatal = true
      · simp [hf]
      · simp [hf]
  | succ l ih =>
    intro attempt
    unfold withRetryAux
    cases h : outcomes attempt with
    | ok a => simp
    | error e =>
      by_cases hf : e.isFatal = true
      · simp [hf]
      · simp only [h, hf, Bool.false_eq_true, if_false]
        obtain ⟨m, hm⟩ := Nat.exists_eq_add_of_le
          (withRetryAux_attempts_pos outcomes (attempt + 1) l)
        have hrange : List.range ((withRetryAux outcomes (attempt + 1) l).attempts + 1 - 1) =
            List.range (m + 1) := by rw [hm]; congr 1; omega
        simp only [hrange]
        rw [List.range_succ_eq_map, List.map_cons, List.map_map]
        have hrw := ih (attempt + 1)
        rw [hm] at hrw
        have hm' : List.range (1 + m - 1) = List.range m := by congr 1; omega
        rw [hm'] at hrw
        simp only [hrw]
        congr 1
        apply List.map_congr_left
        intro a _
        simp only [Function.comp_apply, Nat.succ_eq_add_one]
        have hEq : attempt + 1 + a = attempt + (a + 1) := by omega
        rw [hEq]

theorem withRetryAux_fatal {α : Type} (outcomes : ℕ → Except JsError α) :
    ∀ (k : ℕ) (left attempt : ℕ) (e : JsError), k ≤ left →
      (∀ j, j < k → ∃ e2, outcomes (attempt + j) = .error e2 ∧ e2.isFatal = false) →
      outcomes (attempt + k) = .error e → e.isFatal = true →
      (withRetryAux outcomes attempt left).result = .error (.immediate e) ∧
      (withRetryAux outcomes attempt left).attempts = k + 1 := by
  intro k
  induction k with
  | zero =>
    intro left attempt e _ _ he hf
    rw [Nat.add_zero] at he
    unfold withRetryAux
    cases left <;> simp [he, hf]
  | succ k ih =>
    intro left attempt e hk htrans he hf
    obtain ⟨e0, he0, hf0⟩ := htrans 0 (Nat.succ_pos k)
    rw [Nat.add_zero] at he0
    obtain ⟨l, rfl⟩ : ∃ l, left = l + 1 := by
      cases left with
      | zero => omega
      | succ l => exact ⟨l, rfl⟩
    have ihres := ih l (attempt + 1) e (by omega)
      (fun j hj => by
        have := htrans (j + 1) (by omega)
        simpa [Nat.add_assoc, Nat.add_comm 1 j] using this)
      (by
        have heq : attempt + 1 + k = attempt + (k + 1) := by omega
        rw [heq]
        exact he)
      hf
    unfold withRetryAux
    simp only [he0, hf0, Bool.false_eq_true, if_false]
    exact ⟨ihres.1, by rw [ihres.2]⟩

theorem withRetryAux_exhausted {α : Type} (outcomes : ℕ → Except JsError α) :
    ∀ left attempt : ℕ,
      (∀ j, j ≤ left → ∃ e2, outcomes (attempt + j) = .error e2 ∧ e2.isFatal = false) →
      ∀ e, outcomes (attempt + left) = .error e →
      (withRetryAux outcomes attempt left).result = .error (.exhausted e) ∧
      (withRetryAux outcomes attempt left).attempts = left + 1 := by
  intro left
  induction left with
  | zero =>
    intro attempt htrans e he
    rw [Nat.add_zero] at he
    obtain ⟨e0, he0, hf0⟩ := htrans 0 (by omega)
    rw [Nat.add_zero] at he0
    have hee : e0 = e := by
      rw [he] at he0
      exact ((Except.error.injEq _ _).mp he0).symm
    subst hee
    unfold withRetryAux
    simp [he, hf0]
  | succ l ih =>
    intro attempt htrans e he
    obtain ⟨e0, he0, hf0⟩ := htrans 0 (by omega)
    rw [Nat.add_zero] at he0
    have ihres := ih (attempt + 1)
      (fun j hj => by
        have := htrans (j + 1) (by omega)
        simpa [Nat.add_assoc, Nat.add_comm 1 j] using this)
      e
      (by
        have heq : attempt + 1 + l = attempt + (l + 1) := by omega
        rw [heq]
        exact he)
    unfold withRetryAux
    simp only [he0, hf0, Bool.false_eq_true, if_false]
    exact ⟨ihres.1, by rw [ihres.2]⟩

/-- C4: withRetry performs at most 4 attempts (3 retries); the waits before
    the successive retries are 1000, 2000, 4000 ms; a fatal 4xx (other than
    408/429) reached after only transient failures stops the call immediately
    with that error rethrown; and when all 4 attempts fail transiently the
    last error is surfaced as the exhausted failure after delays of
    1s, 2s, 4s. -/
theorem withRetry_spec {α : Type} (outcomes : ℕ → Except JsError α) :
    (withRetry outcomes).attempts ≤ 4 ∧
    (withRetry outcomes).delays =
      (List.range ((withRetry outcomes).attempts - 1)).map (fun i => 1000 * 2 ^ i) ∧
    (∀ (k : ℕ) (e : JsError), k ≤ 3 →
      (∀ j, j < k → ∃ e2, outcomes j = .error e2 ∧ e2.isFatal = false) →
      outcomes k = .error e → e.isFatal = true →
      (withRetry outcomes).result = .error (.immediate e) ∧
      (withRetry outcomes).attempts = k + 1) ∧
    ((∀ j, j ≤ 3 → ∃ e2, outcomes j = .error e2 ∧ e2.isFatal = false) →
      ∀ e, outcomes 3 = .error e →
      (withRetry outcomes).result = .error (.exhausted e) ∧
      (withRetry outcomes).attempts = 4 ∧
      (withRetry outcomes).delays = [1000, 2000, 4000]) := by
  refine ⟨withRetryAux_attempts_le outcomes 3 0, ?_, ?_, ?_⟩
  · have h := withRetryAux_delays outcomes 3 0
    simpa [withRetry] using h
  · intro k e hk htrans he hf
    exact withRetryAux_fatal outcomes k 3 0 e hk (fun j hj => by simpa using htrans j hj)
      (by simpa using he) hf
  · intro htrans e he
    have h := withRetryAux_exhausted outcomes 3 0 (fun j hj => by simpa using htrans j hj)
      e (by simpa using he)
    refine ⟨h.1, h.2, ?_⟩
    have hd := withRetryAux_delays outcomes 3 0
    rw [show (withRetryAux outcomes 0 3).attempts = 4 from h.2] at hd
    simpa [withRetry] using hd

/-- Witness for C4 at concrete outcome sequences: four transient network
    failures exhaust the retries with backoff 1s, 2s, 4s, and an immediate
    HTTP 404 fails on the first attempt with no retry. -/
theorem withRetry_spec_witness :
    (withRetry transientOutcomes).result =
      .error (.exhausted (.network ("socket timeout"))) ∧
    (withRetry transientOutcomes).attempts = 4 ∧
    (withRetry transientOutcomes).delays = [1000, 2000, 4000] ∧
    (withRetry fatalOutcomes).result = .error (.immediate (.http 404 ("not found"))) ∧
    (withRetry fatalOutcomes).attempts = 1 := by
  have hexh := (withRetry_spec transientOutcomes).2.2.2
    (fun j _ => ⟨.network ("socket timeout"), rfl, rfl⟩) (.network ("socket timeout")) rfl
  have hfat := (withRetry_spec fatalOutcomes).2.2.1 0 (.http 404 ("not found")) (by decide)
    (fun j hj => absurd hj (by omega)) rfl (by decide)
  exact ⟨hexh.1, hexh.2.1, hexh.2.2, hfat.1, hfat.2⟩

/-- C5: getSession returns the cached token and session id unchanged while
    the cached session's age in seconds is below aliveTime - 60; past that
    (or with no cache) it fails with the credentials-not-found error when no
    authenticated credentials exist, and otherwise creates a session with
    alive-time 300, replaces the cached entry, schedules renewal, and returns
    the new token and session id (the Ops Center connection being
    configured). -/
theorem getSession_spec (storageDeviceId : String) (cached : Option CachedSession)
    (now : ℚ) (hasCreds : Bool) (fresh : String × ℤ) :
    (∀ s : CachedSession, cached = some s →
      (now - s.createdAt) / 1000 < s.aliveTime - 60 →
      getSession storageDeviceId cached now true hasCreds fresh =
        ⟨.ok (s.token, s.sessionId), some s, none, false⟩) ∧
    ((∀ s : CachedSession, cached = some s →
        ¬ (now - s.createdAt) / 1000 < s.aliveTime - 60) →
      hasCreds = false →
      getSession storageDeviceId cached now true hasCreds fresh =
        ⟨.error (credsNotFoundMsg storageDeviceId), cached, none, false⟩) ∧
    ((∀ s : CachedSession, cached = some s →
        ¬ (now - s.createdAt) / 1000 < s.aliveTime - 60) →
      hasCreds = true →
      getSession storageDeviceId cached now true hasCreds fresh =
        ⟨.ok fresh, some ⟨fresh.1, fresh.2, now, 300⟩, some 300, true⟩) := by
  refine ⟨?_, ?_, ?_⟩
  · rintro s rfl hfreshAge
    simp [getSession, hfreshAge]
  · intro hstale hcreds
    subst hcreds
    cases cached with
    | none => simp [getSession, getSessionCreate]
    | some s => simp [getSession, getSessionCreate, hstale s rfl]
  · intro hstale hcreds
    subst hcreds
    cases cached with
    | none => simp [getSession, getSessionCreate]
    | some s => simp [getSession, getSessionCreate, hstale s rfl]

/-- Witness for C5 at concrete inputs: a fresh cached session is returned
    unchanged; with no cache and no credentials the call fails with the
    credentials error; with credentials a new 300-second session replaces
    the cache and renewal is scheduled. -/
theorem getSession_spec_witness :
    getSession ("dev1") (some ⟨"tokA", 7, 0, 300⟩) 0 true true ("tokB", 8) =
      ⟨.ok ("tokA", 7), some ⟨"tokA", 7, 0, 300⟩, none, false⟩ ∧
    getSession ("dev1") none 0 true false ("tokB", 8) =
      ⟨.error (credsNotFoundMsg ("dev1")), none, none, false⟩ ∧
    getSession ("dev1") none 0 true true ("tokB", 8) =
      ⟨.ok ("tokB", 8), some ⟨"tokB", 8, 0, 300⟩, some 300, true⟩ := by
  refine ⟨?_, ?_, ?_⟩
  · exact (getSession_spec ("dev1") (some ⟨"tokA", 7, 0, 300⟩) 0 true ("tokB", 8)).1
      ⟨"tokA", 7, 0, 300⟩ rfl (by norm_num)
  · exact (getSession_spec ("dev1") none 0 false ("tokB", 8)).2.1
      (fun s hs => Option.noConfusion hs) rfl
  · exact (getSession_spec ("dev1") none 0 true ("tokB", 8)).2.2
      (fun s hs => Option.noConfusion hs) rfl

/-- C6: the pair-reading loop requests batches of 500 starting at cursor 0,
    stops on any batch of fewer than 500 entries (including an empty one)
    keeping only UR pairs, and on a full batch advances the cursor to the
    last returned pair's pvolLdevId + 1; 1200 pairs delivered as batches of
    500, 500, 200 cause exactly 3 requests with cursors 0, 500, 1000. -/
theorem discoverPairs_spec :
    (∀ (server : ℕ → ℕ → List PairRec) (cursor fuel : ℕ),
      (server cursor 500).length < 500 →
      discoverPairsAux server cursor (fuel + 1) =
        ([⟨cursor, 500⟩], (server cursor 500).filter (fun p => p.replicationType == "UR"))) ∧
    (∀ (server : ℕ → ℕ → List PairRec) (cursor fuel : ℕ),
      ¬ (server cursor 500).length < 500 →
      discoverPairsAux server cursor (fuel + 1) =
        (⟨cursor, 500⟩ ::
            (discoverPairsAux server
              (((server cursor 500).getLast?.map (fun p => p.pvolLdevId)).getD 0 + 1) fuel).1,
          (server cursor 500).filter (fun p => p.replicationType == "UR") ++
            (discoverPairsAux server
              (((server cursor 500).getLast?.map (fun p => p.pvolLdevId)).getD 0 + 1)
              fuel).2)) ∧
    (discoverPairs exampleServer 5).1 = [⟨0, 500⟩, ⟨500, 500⟩, ⟨1000, 500⟩] ∧
    (discoverPairs exampleServer 5).2 = examplePairs := by
  have hsmall : ∀ (server : ℕ → ℕ → List PairRec) (cursor fuel : ℕ),
      (server cursor 500).length < 500 →
      discoverPairsAux server cursor (fuel + 1) =
        ([⟨cursor, 500⟩], (server cursor 500).filter (fun p => p.replicationType == "UR")) := by
    intro server cursor fuel h
    unfold discoverPairsAux
    by_cases hb : server cursor 500 = []
    · simp [hb]
    · simp [hb, h]
  have hfull : ∀ (server : ℕ → ℕ → List PairRec) (cursor fuel : ℕ),
      ¬ (server cursor 500).length < 500 →
      discoverPairsAux server cursor (fuel + 1) =
        (⟨cursor, 500⟩ ::
            (discoverPairsAux server
              (((server cursor 500).getLast?.map (fun p => p.pvolLdevId)).getD 0 + 1) fuel).1,
          (server cursor 500).filter (fun p => p.replicationType == "UR") ++
            (discoverPairsAux server
              (((server cursor 500).getLast?.map (fun p => p.pvolLdevId)).getD 0 + 1)
              fuel).2) := by
    intro server cursor fuel h
    have hb : ¬ server cursor 500 = [] := by
      intro h0
      rw [h0] at h
      simp at h
    conv_lhs => rw [discoverPairsAux]
    simp [hb, h]
  have hlen : ∀ c : ℕ, (exampleServer c 500).length = min 500 (1200 - c) := by
    intro c
    simp [exampleServer]
  have hfil : ∀ c n : ℕ,
      (exampleServer c n).filter (fun p => p.replicationType == "UR") = exampleServer c n := by
    intro c n
    apply List.filter_eq_self.mpr
    intro p hp
    simp only [exampleServer, List.mem_map] at hp
    obtain ⟨i, _, rfl⟩ := hp
    rfl
  have hlast : ∀ c m : ℕ, min 500 (1200 - c) = m + 1 →
      ((exampleServer c 500).getLast?.map (fun p => p.pvolLdevId)).getD 0 = c + m := by
    intro c m hm
    simp only [exampleServer, hm, List.getLast?_map, List.getLast?_range']
    simp [examplePair]
  have hrun : discoverPairsAux exampleServer 0 5 =
      ([⟨0, 500⟩, ⟨500, 500⟩, ⟨1000, 500⟩], examplePairs) := by
    have h0 := hfull exampleServer 0 4 (by rw [hlen]; omega)
    rw [hlast 0 499 (by omega)] at h0
    have h1 := hfull exampleServer 500 3 (by rw [hlen]; omega)
    rw [hlast 500 499 (by omega)] at h1
    have h2 := hsmall exampleServer 1000 2 (by rw [hlen]; omega)
    have e01 : (0 : ℕ) + 499 + 1 = 500 := by omega
    have e51 : (500 : ℕ) + 499 + 1 = 1000 := by omega
    rw [e01] at h0
    rw [e51] at h1
    rw [h0, h1, h2, hfil, hfil, hfil]
    refine Prod.ext rfl ?_
    simp only [exampleServer, examplePairs]
    have m0 : min 500 (1200 - 0) = 500 := by omega
    have m5 : min 500 (1200 - 500) = 500 := by omega
    have m10 : min 500 (1200 - 1000) = 200 := by omega
    rw [m0, m5, m10]
    have e1 : List.range' 500 500 ++ List.range' 1000 200 = List.range' 500 700 := by
      have h := List.range'_append 500 500 200 1
      simpa using h
    have e2 : List.range' 0 500 ++ List.range' 500 700 = List.range' 0 1200 := by
      have h := List.range'_append 0 500 700 1
      simpa using h
    have hr : List.range' 0 500 ++ (List.range' 500 500 ++ List.range' 1000 200) =
        List.range 1200 := by
      rw [e1, e2, List.range_eq_range']
    have hm : List.map examplePair (List.range' 0 500) ++
        (List.map examplePair (List.range' 500 500) ++
          List.map examplePair (List.range' 1000 200)) =
        List.map examplePair
          (List.range' 0 500 ++ (List.range' 500 500 ++ List.range' 1000 200)) := by
      rw [List.map_append, List.map_append]
    exact hm.trans (congrArg (List.map examplePair) hr)
  refine ⟨hsmall, hfull, ?_, ?_⟩
  · rw [discoverPairs, hrun]
  · rw [discoverPairs, hrun]

/-- Witness for C6 at a concrete input: an empty batch stops the loop after
    the single request at the starting cursor. -/
theorem discoverPairs_spec_witness :
    ((fun _ _ => ([] : List PairRec)) 0 500).length < 500 ∧
    discoverPairsAux (fun _ _ => ([] : List PairRec)) 0 1 =
      ([⟨0, 500⟩], ((fun _ _ => ([] : List PairRec)) 0 500).filter
        (fun p => p.replicationType == "UR")) :=
  ⟨by decide, discoverPairs_spec.1 (fun _ _ => []) 0 0 (by decide)⟩

theorem pollLoop_eq (process : String → Except String Unit) :
    ∀ storages : List String,
      pollLoop process storages =
        (storages, storages.filterMap (fun s =>
          match process s with
          | .ok _ => none
          | .error m => some (s, m))) := by
  intro storages
  induction storages with
  | nil => rfl
  | cons a t ih => cases hp : process a <;> simp [pollLoop, ih, hp]

/-- C7: with at least one authenticated storage and a configuration in
    place, a poll cycle that is not already running processes every storage
    even when some of them throw, records exactly the throwing storages in
    the per-endpoint error summary, stamps the single lastPollTime, and ends
    with the polling flag cleared. -/
theorem pollCycle_spec (hasConfig : Bool) (storages : List String)
    (process : String → Except String Unit) (now : ℕ) (st : PollState)
    (h1 : st.isPolling = false) (h2 : hasConfig = true) (h3 : storages ≠ []) :
    (pollCycle hasConfig storages process now st).2.1 = storages ∧
    (pollCycle hasConfig storages process now st).2.2 =
      storages.filterMap (fun s =>
        match process s with
        | .ok _ => none
        | .error m => some (s, m)) ∧
    (pollCycle hasConfig storages process now st).1.lastPollTime = some now ∧
    (pollCycle hasConfig storages process now st).1.isPolling = false := by
  subst h2
  refine ⟨?_, ?_, ?_, ?_⟩ <;> simp [pollCycle, h1, h3, pollLoop_eq]

/-- Witness for C7 at a concrete input: endpoint A's processing throws, B is
    still processed, the error summary names A only, and the last-poll
    timestamp is stamped. -/
theorem pollCycle_spec_witness :
    (pollCycle true ["A", "B"] examplePollProcess 42 ⟨false, none, none⟩).2.1 = ["A", "B"] ∧
    (pollCycle true ["A", "B"] examplePollProcess 42 ⟨false, none, none⟩).2.2 =
      [("A", "journal read failed")] ∧
    (pollCycle true ["A", "B"] examplePollProcess 42 ⟨false, none, none⟩).1.lastPollTime =
      some 42 ∧
    (pollCycle true ["A", "B"] examplePollProcess 42 ⟨false, none, none⟩).1.isPolling =
      false := by
  have h := pollCycle_spec true ["A", "B"] examplePollProcess 42 ⟨false, none, none⟩ rfl rfl
    (by decide)
  refine ⟨h.1, ?_, h.2.2.1, h.2.2.2⟩
  rw [h.2.1]
  decide

theorem alertMatches_iff (a : AlertRow) (cg : ℤ) (ty sev : String) :
    alertMatches a cg ty sev = true ↔
      a.cgId = cg ∧ a.alertType = ty ∧ a.severity = sev ∧ a.acknowledged = false := by
  simp [alertMatches, and_assoc]

theorem createAlert_preserves (store : List AlertRow) (cg : ℤ) (ty sev msg : String)
    (h : dedupInvariant store) : dedupInvariant (createAlert store cg ty sev msg) := by
  intro cg2 ty2 sev2
  unfold createAlert
  by_cases hex : store.any (fun a => alertMatches a cg ty sev) = true
  · rw [if_pos hex]
    exact h cg2 ty2 sev2
  · rw [if_neg hex]
    unfold unackCount
    rw [List.filter_append, List.length_append]
    by_cases hsame : cg2 = cg ∧ ty2 = ty ∧ sev2 = sev
    · obtain ⟨rfl, rfl, rfl⟩ := hsame
      have hnone : store.filter (fun a => alertMatches a cg2 ty2 sev2) = [] := by
        rw [List.filter_eq_nil_iff]
        intro a ha
        have hall := List.any_eq_true.not.mp hex
        push_neg at hall
        exact hall a ha
      rw [hnone]
      have hone : List.filter (fun a => alertMatches a cg2 ty2 sev2)
          [⟨cg2, ty2, sev2, msg, false⟩] = [⟨cg2, ty2, sev2, msg, false⟩] := by
        simp [alertMatches]
      rw [hone]
      simp
    · have hrow : alertMatches ⟨cg, ty, sev, msg, false⟩ cg2 ty2 sev2 = false := by
        cases hb : alertMatches ⟨cg, ty, sev, msg, false⟩ cg2 ty2 sev2 with
        | false => rfl
        | true =>
          have hh := (alertMatches_iff ⟨cg, ty, sev, msg, false⟩ cg2 ty2 sev2).mp hb
          exact absurd ⟨hh.1.symm, hh.2.1.symm, hh.2.2.1.symm⟩ hsame
      have hznew : List.filter (fun a => alertMatches a cg2 ty2 sev2)
          [⟨cg, ty, sev, msg, false⟩] = [] := by
        simp [hrow]
      rw [hznew]
      simpa using h cg2 ty2 sev2

/-- C8: raising an alert while an unacknowledged alert with the same
    (group, type, severity) exists inserts no row, so any sequence of
    createAlert calls leaves at most one unacknowledged alert per triple;
    raising the same alert twice while the first is unacknowledged produces
    only one row. -/
theorem createAlert_dedup :
    (∀ calls : List AlertCall, dedupInvariant (runAlerts calls)) ∧
    (∀ (cg : ℤ) (ty sev m1 m2 : String),
      createAlert (createAlert [] cg ty sev m1) cg ty sev m2 =
        [⟨cg, ty, sev, m1, false⟩]) := by
  constructor
  · have hstep : ∀ (calls : List AlertCall) (store : List AlertRow), dedupInvariant store →
        dedupInvariant
          (calls.foldl (fun st c => createAlert st c.cg c.ty c.sev c.msg) store) := by
      intro calls
      induction calls with
      | nil => intro store h; exact h
      | cons c t ih =>
        intro store h
        exact ih _ (createAlert_preserves store c.cg c.ty c.sev c.msg h)
    intro calls
    exact hstep calls [] (fun cg ty sev => by simp [unackCount])
  · intro cg ty sev m1 m2
    have h1 : createAlert [] cg ty sev m1 = [⟨cg, ty, sev, m1, false⟩] := by
      simp [createAlert]
    rw [h1]
    unfold createAlert
    rw [if_pos]
    simp [alertMatches]

/-- Witness for C8 at a concrete input: replaying two identical alert calls
    leaves a single unacknowledged row for the triple. -/
theorem createAlert_dedup_witness :
    createAlert (createAlert [] 3 ("usage_rate_warning") ("warning") ("m1")) 3
      ("usage_rate_warning") ("warning") ("m2") =
      [⟨3, "usage_rate_warning", "warning", "m1", false⟩] ∧
    unackCount (runAlerts [⟨3, "usage_rate_warning", "warning", "m1"⟩,
      ⟨3, "usage_rate_warning", "warning", "m2"⟩]) 3 ("usage_rate_warning") ("warning") ≤ 1 :=
  ⟨createAlert_dedup.2 3 ("usage_rate_warning") ("warning") ("m1") ("m2"),
    createAlert_dedup.1 [⟨3, "usage_rate_warning", "warning", "m1"⟩,
      ⟨3, "usage_rate_warning", "warning", "m2"⟩] 3 ("usage_rate_warning") ("warning")⟩

/-- C9: every consistency group produced by discoverConsistencyGroups has
    volume count equal to the number of pairs found for that group when at
    least one pair was found, and to the sum of the numOfLdevs self-reported
    by the group's (non-SMPL) journals when the pair query yielded no pairs
    for that group. -/
theorem discoverConsistencyGroups_volumeCount (pairs : List PairRec)
    (journalsRaw : List JournalRec) (g : CGroup)
    (hg : g ∈ discoverConsistencyGroups pairs journalsRaw) :
    (cgPairsFor pairs g.consistencyGroupId ≠ [] →
      g.volumeCount = (cgPairsFor pairs g.consistencyGroupId).length) ∧
    (cgPairsFor pairs g.consistencyGroupId = [] →
      g.volumeCount =
        ((cgJournalsFor (journalsRaw.filter (fun j => j.journalStatus ≠ "SMPL"))
            g.consistencyGroupId).map (fun j => j.numOfLdevs.getD 0)).sum) := by
  rw [discoverConsistencyGroups, List.mem_map] at hg
  obtain ⟨cg, hcg, hfeq⟩ := hg
  subst hfeq
  constructor
  · intro hne
    show volumeCountFor pairs (journalsRaw.filter (fun j => j.journalStatus ≠ "SMPL")) cg =
      (cgPairsFor pairs cg).length
    unfold volumeCountFor
    rw [if_neg]
    intro hand
    exact hne (List.length_eq_zero.mp hand.1)
  · intro hnil
    show volumeCountFor pairs (journalsRaw.filter (fun j => j.journalStatus ≠ "SMPL")) cg =
      ((cgJournalsFor (journalsRaw.filter (fun j => j.journalStatus ≠ "SMPL")) cg).map
        (fun j => j.numOfLdevs.getD 0)).sum
    unfold volumeCountFor
    by_cases hj : 0 < (cgJournalsFor (journalsRaw.filter
        (fun j => j.journalStatus ≠ "SMPL")) cg).length
    · rw [if_pos ⟨by rw [hnil]; rfl, hj⟩]
    · rw [if_neg (fun hand => hj hand.2)]
      have hjnil : cgJournalsFor (journalsRaw.filter (fun j => j.journalStatus ≠ "SMPL")) cg =
          [] := by
        rcases List.eq_nil_or_concat (cgJournalsFor (journalsRaw.filter
            (fun j => j.journalStatus ≠ "SMPL")) cg) with h | ⟨l, a, h⟩
        · exact h
        · exact absurd (by rw [h]; simp) hj
      rw [hnil, hjnil]
      simp

/-- Witness for C9 at a concrete input: group 1 counts its single pair, and
    group 2 (no pairs found) falls back to the journal's 7 ldevs. -/
theorem discoverConsistencyGroups_volumeCount_witness :
    ((⟨1, 1, 1⟩ : CGroup).volumeCount = (cgPairsFor examplePairList 1).length) ∧
    ((⟨2, 7, 1⟩ : CGroup).volumeCount =
      ((cgJournalsFor (exampleJournalList.filter (fun j => j.journalStatus ≠ "SMPL"))
          2).map (fun j => j.numOfLdevs.getD 0)).sum) := by
  constructor
  · exact (discoverConsistencyGroups_volumeCount examplePairList exampleJournalList
      ⟨1, 1, 1⟩ (by decide)).1 (by decide)
  · exact (discoverConsistencyGroups_volumeCount examplePairList exampleJournalList
      ⟨2, 7, 1⟩ (by decide)).2 (by decide)

end HdsRpo
